import Mathlib

/-!
Verification of the support library `src/lib.rs` of the game-engine
repository (OpenGL tutorial programs plus a shared library providing a
shader helper, an FPS camera, texture/cubemap loaders and an OBJ model
loader).

The Rust code is shallowly embedded: `f32`/`f64` arithmetic that only
adds, subtracts, multiplies and compares is modelled over `ℚ`;
trigonometric direction computation is modelled over `ℝ`; GL calls that
matter to the claims are modelled as explicit data (command traces,
allocation counters for `glGenTextures`, texture-parameter records);
panicking paths (`expect`, `unimplemented!`, `assert!`, out-of-bounds
indexing) are modelled with `Option`, `none` being the panic.
-/

namespace GameEngine

/-! ### OpenGL constants (numeric values of the `gl` crate constants used) -/

def glRGB : ℕ := 0x1907
def glRGBA : ℕ := 0x1908
def glCLAMP_TO_EDGE : ℕ := 0x812F
def glREPEAT : ℕ := 0x2901
def glLINEAR : ℕ := 0x2601
def glLINEAR_MIPMAP_LINEAR : ℕ := 0x2703
def glTEXTURE0 : ℕ := 0x84C0
def glTEXTURE_CUBE_MAP_POSITIVE_X : ℕ := 0x8515
def glTEXTURE_CUBE_MAP_NEGATIVE_X : ℕ := 0x8516
def glTEXTURE_CUBE_MAP_POSITIVE_Y : ℕ := 0x8517
def glTEXTURE_CUBE_MAP_NEGATIVE_Y : ℕ := 0x8518
def glTEXTURE_CUBE_MAP_POSITIVE_Z : ℕ := 0x8519
def glTEXTURE_CUBE_MAP_NEGATIVE_Z : ℕ := 0x851A

/-! ### FPSCamera (src/lib.rs lines 167-276)

Scalar fields that the event handlers update with `+`, `-`, `*` and
comparisons are `ℚ`; the `direction` vector, recomputed with `cos`/`sin`,
is `ℝ × ℝ × ℝ`.  The glfw events `process_event` matches on are
`CursorPos`, `Scroll`, and everything else (`_ => {}`), modelled by the
three constructors of `WindowEvent`. -/

structure FPSCamera where
  position : ℚ × ℚ × ℚ
  direction : ℝ × ℝ × ℝ
  fov : ℚ
  yaw : ℚ
  pitch : ℚ
  last_x : ℚ
  last_y : ℚ
  aspect : ℚ
  first_mouse : Bool

inductive WindowEvent where
  | CursorPos (xpos ypos : ℚ)
  | Scroll (xoffset yoffset : ℚ)
  | Other

/-- `f32::to_radians`: degrees to radians. -/
noncomputable def toRadians (x : ℝ) : ℝ := x * Real.pi / 180

/-- The unnormalized direction vector the cursor handler computes
(lines 240-242): `(cos pitch * cos yaw, sin pitch, cos pitch * sin yaw)`
with pitch and yaw in degrees. -/
noncomputable def directionVec (pitch yaw : ℚ) : ℝ × ℝ × ℝ :=
  (Real.cos (toRadians pitch) * Real.cos (toRadians yaw),
   Real.sin (toRadians pitch),
   Real.cos (toRadians pitch) * Real.sin (toRadians yaw))

/-- `cgmath`'s `InnerSpace::normalize`: divide by the Euclidean magnitude. -/
noncomputable def normalize3 (v : ℝ × ℝ × ℝ) : ℝ × ℝ × ℝ :=
  let m := Real.sqrt (v.1 ^ 2 + v.2.1 ^ 2 + v.2.2 ^ 2)
  (v.1 / m, v.2.1 / m, v.2.2 / m)

/-- Pitch clamping of the cursor handler (lines 233-238). -/
def clampPitch (pitch : ℚ) : ℚ :=
  let pitch := if pitch > 89 then 89 else pitch
  if pitch < -89 then -89 else pitch

/-- The scroll handler's update of `fov` (lines 245-255). -/
def scrollFov (fov yoffset : ℚ) : ℚ :=
  let fov := if fov ≥ 1 ∧ fov ≤ 45 then fov - yoffset else fov
  let fov := if fov ≤ 1 then 1 else fov
  if fov ≥ 45 then 45 else fov

/-- `FPSCamera::process_event` (src/lib.rs lines 211-258). -/
noncomputable def FPSCamera.process_event (c : FPSCamera) (event : WindowEvent) :
    FPSCamera :=
  match event with
  | .CursorPos xpos ypos =>
    if c.first_mouse then
      { c with first_mouse := false, last_x := xpos, last_y := ypos }
    else
      let xoffset := xpos - c.last_x
      let yoffset := c.last_y - ypos
      let sensitivity : ℚ := 5 / 100
      let yaw := c.yaw + xoffset * sensitivity
      let pitch := clampPitch (c.pitch + yoffset * sensitivity)
      { c with
        last_x := xpos, last_y := ypos,
        yaw := yaw, pitch := pitch,
        direction := normalize3 (directionVec pitch yaw) }
  | .Scroll _xoffset yoffset => { c with fov := scrollFov c.fov yoffset }
  | .Other => c

/-! ### Texture loading (src/lib.rs lines 279-352)

A decoded `image::DynamicImage` is modelled by its pixel-format
constructor; the `ℕ` payload stands for the decoded pixel data (width,
height and bytes), which the claims never inspect.  `ImageOther` covers
every other constructor of `DynamicImage` (its payload standing for the
`color()` value reported by the `unimplemented!` panic message). -/

inductive DynImage where
  | ImageRgb8 (pixels : ℕ)
  | ImageRgba8 (pixels : ℕ)
  | ImageOther (color : ℕ)
deriving DecidableEq

/-- The `match img` of `load_texture` (lines 287-291): 3-channel RGB and
4-channel RGBA map to the GL format constants, anything else hits the
`unimplemented!` panic, modelled by `none`. -/
def textureFormat : DynImage → Option ℕ
  | .ImageRgb8 _ => some glRGB
  | .ImageRgba8 _ => some glRGBA
  | .ImageOther _ => none

/-- The observable outcome of `load_texture`: the upload format, the
texture parameters set, and which image's pixels were uploaded. -/
structure Tex2DResult where
  format : ℕ
  wrapS : ℕ
  wrapT : ℕ
  minFilter : ℕ
  magFilter : ℕ
  pixels : ℕ
deriving DecidableEq

/-- `load_texture` (src/lib.rs lines 279-314), applied to the decoded
image (decoding itself is the image crate's; a failed `open` panics
before any of this code runs). -/
def load_texture (img : DynImage) : Option Tex2DResult :=
  (textureFormat img).map fun format =>
    { format := format
      wrapS := if format = glRGBA then glCLAMP_TO_EDGE else glREPEAT
      wrapT := if format = glRGBA then glCLAMP_TO_EDGE else glREPEAT
      minFilter := glLINEAR_MIPMAP_LINEAR
      magFilter := glLINEAR
      pixels := match img with
        | .ImageRgb8 p => p
        | .ImageRgba8 p => p
        | .ImageOther c => c }

/-- The loop body of `load_cubemap` (lines 321-343) starting at face
index `i`: each face image must be `ImageRgb8` (anything else hits
`unimplemented!`), and face `i` is uploaded to GL target
`TEXTURE_CUBE_MAP_POSITIVE_X + i`.  The result is the list of
`(target, pixels)` uploads, in order. -/
def loadCubemapGo : ℕ → List DynImage → Option (List (ℕ × ℕ))
  | _, [] => some []
  | i, img :: rest =>
    match img with
    | .ImageRgb8 pixels =>
      (loadCubemapGo (i + 1) rest).map
        (fun uploads => (glTEXTURE_CUBE_MAP_POSITIVE_X + i, pixels) :: uploads)
    | _ => none

/-- `load_cubemap` (src/lib.rs lines 316-352): iterates over however many
paths were supplied (`paths.iter().enumerate()` — there is no check that
there are six) and uploads each decoded face. -/
def load_cubemap (imgs : List DynImage) : Option (List (ℕ × ℕ)) :=
  loadCubemapGo 0 imgs

/-! ### Vertex and Mesh (src/lib.rs lines 354-519) -/

/-- The `Vertex` record (lines 355-361): `position: Vector3<f32>`,
`normal: Vector3<f32>`, `tex_coords: Vector2<f32>`. -/
structure Vertex where
  position : ℚ × ℚ × ℚ
  normal : ℚ × ℚ × ℚ
  tex_coords : ℚ × ℚ
deriving DecidableEq

inductive TextureType where
  | Diffuse
  | Specular
deriving DecidableEq

/-- The `Texture` record (lines 369-373): a GL texture handle plus its
kind.  Handles come from `glGenTextures`, modelled by a monotone
allocation counter. -/
structure Texture where
  id : ℕ
  type_ : TextureType
deriving DecidableEq

/-- `size_of::<f32>()` = 4 bytes. -/
def f32_size : ℕ := 4

/-- Size and alignment of `cgmath::Vector3<f32>`: three `f32` fields,
`repr(C)`. -/
def vector3_layout : ℕ × ℕ := (3 * f32_size, f32_size)

/-- Size and alignment of `cgmath::Vector2<f32>`. -/
def vector2_layout : ℕ × ℕ := (2 * f32_size, f32_size)

/-- Round `off` up to a multiple of `align`. -/
def alignUp (off align : ℕ) : ℕ := ((off + align - 1) / align) * align

/-- The C struct layout rule `#[repr(C)]` prescribes: fields are placed
in order, each at the next offset aligned for it, and the struct size is
the end offset rounded up to the struct's alignment (the max field
alignment).  Input: `(size, align)` per field; output: `(size, align)`
of the struct. -/
def reprCLayout (fields : List (ℕ × ℕ)) : ℕ × ℕ :=
  let fin := fields.foldl
    (fun acc f => (alignUp acc.1 f.2 + f.1, max acc.2 f.2)) (0, 1)
  (alignUp fin.1 fin.2, fin.2)

/-- `mem::size_of::<Vertex>()` under `repr(C)` (lines 355-361). -/
def vertex_size : ℕ :=
  (reprCLayout [vector3_layout, vector3_layout, vector2_layout]).1

/-- The CPU-visible state of a `Mesh` (lines 384-392); the GPU buffer
handles are irrelevant to the claims except `vao`, which appears in the
draw trace. -/
structure Mesh where
  verticies : List Vertex
  indices : List ℕ
  textures : List Texture
  vao : ℕ
deriving DecidableEq

/-- `Mesh::new` (src/lib.rs lines 395-468), parametrized by the byte size
of the vertex record it is instantiated at (the Rust code computes it
with `mem::size_of`).  The `assert!(vertex_size == size_of::<f32>() * 8)`
on line 398 is the panic path, modelled by `none`. -/
def Mesh.new (vsize : ℕ) (verticies : List Vertex) (indices : List ℕ)
    (textures : List Texture) : Option Mesh :=
  if vsize = f32_size * 8 then
    some { verticies := verticies, indices := indices, textures := textures, vao := 0 }
  else
    none

/-! ### Mesh draw traces (src/lib.rs lines 470-514)

`set_texture`, `draw` and `draw_instanced` only issue GL/uniform calls;
they are modelled by the trace of those calls. -/

inductive Cmd where
  | activeTexture (unit : ℕ)
  | setInteger (uniform : String) (value : ℕ)
  | bindTexture2D (id : ℕ)
  | bindVertexArray (vao : ℕ)
  | drawElements (count : ℕ)
  | drawElementsInstanced (count : ℕ) (amount : ℕ)
deriving DecidableEq

/-- The loop of `Mesh::set_texture` (lines 474-492): `i` is the running
texture-unit index, `d` and `s` the diffuse/specular counters. -/
def setTextureGo (i d s : ℕ) : List Texture → List Cmd
  | [] => []
  | t :: ts =>
    match t.type_ with
    | .Diffuse =>
      Cmd.activeTexture (glTEXTURE0 + i)
        :: Cmd.setInteger ("material.texture_diffuse" ++ toString (d + 1)) i
        :: Cmd.bindTexture2D t.id
        :: setTextureGo (i + 1) (d + 1) s ts
    | .Specular =>
      Cmd.activeTexture (glTEXTURE0 + i)
        :: Cmd.setInteger ("material.texture_specular" ++ toString (s + 1)) i
        :: Cmd.bindTexture2D t.id
        :: setTextureGo (i + 1) d (s + 1) ts

/-- `Mesh::set_texture` (src/lib.rs lines 470-496): the loop followed by
the trailing `gl::ActiveTexture(gl::TEXTURE0)`. -/
def set_texture (textures : List Texture) : List Cmd :=
  setTextureGo 0 0 0 textures ++ [Cmd.activeTexture glTEXTURE0]

/-- `Mesh::draw` (src/lib.rs lines 498-505). -/
def Mesh.draw (m : Mesh) : List Cmd :=
  set_texture m.textures
    ++ [Cmd.bindVertexArray m.vao, Cmd.drawElements m.indices.length,
        Cmd.bindVertexArray 0]

/-- `Mesh::draw_instanced` (src/lib.rs lines 507-514). -/
def Mesh.draw_instanced (m : Mesh) (amount : ℕ) : List Cmd :=
  set_texture m.textures
    ++ [Cmd.bindVertexArray m.vao,
        Cmd.drawElementsInstanced m.indices.length amount,
        Cmd.bindVertexArray 0]

/-- The uniform name `set_texture` writes for the `n`-th texture of a
kind: `material.texture_diffuse<n>` or `material.texture_specular<n>`. -/
def uniformName (kind : TextureType) (n : ℕ) : String :=
  match kind with
  | .Diffuse => "material.texture_diffuse" ++ toString n
  | .Specular => "material.texture_specular" ++ toString n

/-- How many textures of kind `k` a texture list contains. -/
def countKind (k : TextureType) (ts : List Texture) : ℕ :=
  (ts.filter fun t => t.type_ = k).length

/-! ### Model loading (src/lib.rs lines 521-601) -/

/-- The fields of a `tobj` material that `load_obj` reads. -/
structure Material where
  diffuse_texture : String
  specular_texture : String
deriving DecidableEq

/-- The fields of a `tobj` mesh that `load_obj` reads. -/
structure TobjMesh where
  positions : List ℚ
  normals : List ℚ
  texcoords : List ℚ
  indices : List ℕ
  material_id : Option ℕ
deriving DecidableEq

structure TobjModel where
  mesh : TobjMesh
deriving DecidableEq

/-- `Path::with_file_name`: replace the last path component (everything
after the last `/`, or the whole path when there is none). -/
def withFileName (path fname : String) : String :=
  String.mk ((path.data.reverse.dropWhile fun c => c ≠ '/').reverse ++ fname.data)

/-- `Texture::new` (src/lib.rs lines 376-381): `load_texture` generates a
fresh GL handle with `glGenTextures`, modelled by a monotone allocation
counter; returns the texture and the next counter. -/
def Texture.new (alloc : ℕ) (ty : TextureType) : Texture × ℕ :=
  ({ id := alloc, type_ := ty }, alloc + 1)

/-- One vertex of the flat array `load_obj` builds (lines 543-549):
entry `i` takes `positions[3i..3i+2]`, `normals[3i..3i+2]`,
`texcoords[2i..2i+1]`; any out-of-bounds index is a Rust panic,
modelled by `none`. -/
def vertexAt (positions normals texcoords : List ℚ) (i : ℕ) : Option Vertex := do
  let px ← positions[3 * i]?
  let py ← positions[3 * i + 1]?
  let pz ← positions[3 * i + 2]?
  let nx ← normals[3 * i]?
  let ny ← normals[3 * i + 1]?
  let nz ← normals[3 * i + 2]?
  let tx ← texcoords[2 * i]?
  let ty ← texcoords[2 * i + 1]?
  pure { position := (px, py, pz), normal := (nx, ny, nz), tex_coords := (tx, ty) }

/-- The vertex-building loop of `load_obj` (lines 540-549):
`len = positions.len() / 3` iterations of `vertexAt`. -/
def buildVertices (positions normals texcoords : List ℚ) : Option (List Vertex) :=
  (List.range (positions.length / 3)).mapM (vertexAt positions normals texcoords)

/-- One `loaded_textures.entry(tex_name)` step (lines 560-567 and
573-580): an occupied entry pushes the cached texture, a vacant one
creates a texture with a fresh handle, caches it and pushes it. -/
def textureEntry (cache : List (String × Texture)) (key : String)
    (ty : TextureType) (textures : List Texture) (alloc : ℕ) :
    List (String × Texture) × List Texture × ℕ :=
  match cache.lookup key with
  | some t => (cache, textures ++ [t], alloc)
  | none =>
    let (texture, alloc) := Texture.new alloc ty
    ((key, texture) :: cache, textures ++ [texture], alloc)

/-- The texture part of one iteration of `load_obj`'s model loop
(src/lib.rs lines 551-582).  `loaded_textures` starts EMPTY here because
the source declares it inside the `for model in models` loop (line 551).
`&materials[material_id]` panics when out of range (`none`). -/
def meshTextures (name : String) (materials : List Material)
    (material_id : Option ℕ) (alloc : ℕ) : Option (List Texture × ℕ) :=
  match material_id with
  | none => some ([], alloc)
  | some mid =>
    match materials[mid]? with
    | none => none
    | some material =>
      let st0 : List (String × Texture) × List Texture × ℕ := ([], [], alloc)
      let st1 :=
        if material.diffuse_texture = "" then st0
        else
          textureEntry st0.1 (withFileName name material.diffuse_texture)
            TextureType.Diffuse st0.2.1 st0.2.2
      let st2 :=
        if material.specular_texture = "" then st1
        else
          textureEntry st1.1 (withFileName name material.specular_texture)
            TextureType.Specular st1.2.1 st1.2.2
      some (st2.2.1, st2.2.2)

/-- The model loop of `Model::load_obj` (src/lib.rs lines 537-585),
threading the GL handle allocator. -/
def loadObjGo (name : String) (materials : List Material) :
    List TobjModel → ℕ → Option (List Mesh × ℕ)
  | [], alloc => some ([], alloc)
  | model :: rest, alloc => do
    let mesh := model.mesh
    let verticies ← buildVertices mesh.positions mesh.normals mesh.texcoords
    let (textures, alloc2) ← meshTextures name materials mesh.material_id alloc
    let m ← Mesh.new vertex_size verticies mesh.indices textures
    let (ms, allocEnd) ← loadObjGo name materials rest alloc2
    pure (m :: ms, allocEnd)

/-- `Model::load_obj` (src/lib.rs lines 528-590), applied to the parsed
`(models, materials)` the external `tobj` parser returns (a parser error
propagates via `?` before any of the modelled code runs). -/
def load_obj (name : String) (models : List TobjModel)
    (materials : List Material) (alloc : ℕ) : Option (List Mesh × ℕ) :=
  loadObjGo name materials models alloc

/-! ### Concrete states used by witnesses -/

/-- The camera the `camera_walk` example starts with, first event not yet
seen. -/
noncomputable def demoCameraFresh : FPSCamera :=
  { position := (0, 0, 3), direction := (0, 0, -1), fov := 45, yaw := -90,
    pitch := 0, last_x := 0, last_y := 0, aspect := 4 / 3, first_mouse := true }

/-- The same camera after its first cursor event has been latched. -/
noncomputable def demoCameraActive : FPSCamera :=
  { position := (0, 0, 3), direction := (0, 0, -1), fov := 45, yaw := -90,
    pitch := 0, last_x := 400, last_y := 300, aspect := 4 / 3, first_mouse := false }

/-! ### Camera lemmas -/

/-- `clampPitch` always lands in `[-89, 89]`. -/
theorem clampPitch_mem (p : ℚ) : -89 ≤ clampPitch p ∧ clampPitch p ≤ 89 := by
  simp only [clampPitch]
  split_ifs <;> constructor <;> linarith

/-- The direction vector recomputed from pitch/yaw has squared norm 1
before normalization: `cos²p·cos²y + sin²p + cos²p·sin²y = 1`. -/
theorem directionVec_normSq (pitch yaw : ℚ) :
    (directionVec pitch yaw).1 ^ 2 + (directionVec pitch yaw).2.1 ^ 2
      + (directionVec pitch yaw).2.2 ^ 2 = 1 := by
  have hy := Real.sin_sq_add_cos_sq (toRadians (yaw : ℝ))
  have hp := Real.sin_sq_add_cos_sq (toRadians (pitch : ℝ))
  simp only [directionVec]
  linear_combination (Real.cos (toRadians (pitch : ℝ))) ^ 2 * hy + hp

/-- Normalizing a vector of squared norm 1 returns it unchanged. -/
theorem normalize3_of_normSq_one (v : ℝ × ℝ × ℝ)
    (hv : v.1 ^ 2 + v.2.1 ^ 2 + v.2.2 ^ 2 = 1) : normalize3 v = v := by
  obtain ⟨x, y, z⟩ := v
  simp only [normalize3] at *
  rw [hv, Real.sqrt_one]
  simp

/-- The closed form of the scroll handler. -/
theorem scrollFov_eq (fov dy : ℚ) :
    scrollFov fov dy =
      (if fov ≥ 1 ∧ fov ≤ 45 then max 1 (min 45 (fov - dy))
       else if fov < 1 then 1 else 45) := by
  simp only [scrollFov]
  by_cases h : fov ≥ 1 ∧ fov ≤ 45
  · rw [if_pos h, if_pos h]
    rcases le_or_lt (fov - dy) 1 with h3 | h3
    · rw [if_pos h3, if_neg (by norm_num : ¬ (1 : ℚ) ≥ 45),
        min_eq_right (by linarith : fov - dy ≤ 45), max_eq_left h3]
    · rw [if_neg (not_le.mpr h3)]
      rcases le_or_lt 45 (fov - dy) with h4 | h4
      · rw [if_pos h4, min_eq_left h4, max_eq_right (by norm_num : (1 : ℚ) ≤ 45)]
      · rw [if_neg (not_le.mpr h4), min_eq_right h4.le, max_eq_right h3.le]
  · rw [if_neg h, if_neg h]
    rcases lt_or_le fov 1 with h1 | h1
    · rw [if_pos h1.le, if_neg (by norm_num : ¬ (1 : ℚ) ≥ 45), if_pos h1]
    · have h2 : ¬ fov ≤ 45 := fun hle => h ⟨h1, hle⟩
      rw [if_neg (by linarith : ¬ fov ≤ 1), if_pos (by linarith : fov ≥ 45),
        if_neg (not_lt.mpr h1)]

/-! ### Claims -/

/-- C3: for every scroll delta delivered to `FPSCamera::process_event` as
a `Scroll` event, the resulting `fov` lies in `[1, 45]`; a `fov` already
in `[1, 45]` is adjusted by the scroll delta (then clamped to the range),
and an out-of-range `fov` is pinned at its nearest bound without the
delta being applied. -/
theorem FPSCamera.scroll_fov_clamped (c : FPSCamera) (dx dy : ℚ) :
    (1 ≤ (c.process_event (.Scroll dx dy)).fov
      ∧ (c.process_event (.Scroll dx dy)).fov ≤ 45) ∧
    (c.process_event (.Scroll dx dy)).fov =
      (if c.fov ≥ 1 ∧ c.fov ≤ 45 then max 1 (min 45 (c.fov - dy))
       else if c.fov < 1 then 1 else 45) := by
  have hfov : (c.process_event (.Scroll dx dy)).fov = scrollFov c.fov dy := rfl
  rw [hfov, scrollFov_eq]
  refine ⟨?_, rfl⟩
  split_ifs with h1 h2
  · exact ⟨le_max_left _ _, max_le (by norm_num) (min_le_left _ _)⟩
  · exact ⟨le_refl 1, by norm_num⟩
  · exact ⟨by norm_num, le_refl 45⟩

/-- C9: the first cursor-move event (`first_mouse` still set) only
latches the cursor position into `last_x`/`last_y` and clears the flag;
yaw, pitch, direction, position and fov are all unchanged. -/
theorem FPSCamera.first_mouse_latch (c : FPSCamera) (x y : ℚ)
    (h : c.first_mouse = true) :
    (c.process_event (.CursorPos x y)).yaw = c.yaw ∧
    (c.process_event (.CursorPos x y)).pitch = c.pitch ∧
    (c.process_event (.CursorPos x y)).direction = c.direction ∧
    (c.process_event (.CursorPos x y)).position = c.position ∧
    (c.process_event (.CursorPos x y)).fov = c.fov ∧
    (c.process_event (.CursorPos x y)).last_x = x ∧
    (c.process_event (.CursorPos x y)).last_y = y ∧
    (c.process_event (.CursorPos x y)).first_mouse = false := by
  simp [FPSCamera.process_event, h]

/-- Witness for C9 at a concrete camera and cursor position. -/
theorem FPSCamera.first_mouse_latch_witness :
    (demoCameraFresh.process_event (.CursorPos 100 200)).yaw = demoCameraFresh.yaw ∧
    (demoCameraFresh.process_event (.CursorPos 100 200)).pitch = demoCameraFresh.pitch ∧
    (demoCameraFresh.process_event (.CursorPos 100 200)).direction = demoCameraFresh.direction ∧
    (demoCameraFresh.process_event (.CursorPos 100 200)).position = demoCameraFresh.position ∧
    (demoCameraFresh.process_event (.CursorPos 100 200)).fov = demoCameraFresh.fov ∧
    (demoCameraFresh.process_event (.CursorPos 100 200)).last_x = 100 ∧
    (demoCameraFresh.process_event (.CursorPos 100 200)).last_y = 200 ∧
    (demoCameraFresh.process_event (.CursorPos 100 200)).first_mouse = false :=
  FPSCamera.first_mouse_latch demoCameraFresh 100 200 rfl

/-- C4: every cursor-move event processed after the first leaves the
pitch within `[-89, 89]`, and the direction is recomputed from the new
yaw/pitch as `(cos p cos y, sin p, cos p sin y)` and normalized, hence
has unit length. -/
theorem FPSCamera.cursor_pitch_clamp_unit_dir (c : FPSCamera) (x y : ℚ)
    (h : c.first_mouse = false) :
    (-89 ≤ (c.process_event (.CursorPos x y)).pitch
      ∧ (c.process_event (.CursorPos x y)).pitch ≤ 89) ∧
    (c.process_event (.CursorPos x y)).direction =
      normalize3 (directionVec (c.process_event (.CursorPos x y)).pitch
        (c.process_event (.CursorPos x y)).yaw) ∧
    Real.sqrt ((c.process_event (.CursorPos x y)).direction.1 ^ 2
      + (c.process_event (.CursorPos x y)).direction.2.1 ^ 2
      + (c.process_event (.CursorPos x y)).direction.2.2 ^ 2) = 1 := by
  have hred : c.process_event (.CursorPos x y) =
      { c with
        last_x := x, last_y := y,
        yaw := c.yaw + (x - c.last_x) * (5 / 100),
        pitch := clampPitch (c.pitch + (c.last_y - y) * (5 / 100)),
        direction := normalize3 (directionVec
          (clampPitch (c.pitch + (c.last_y - y) * (5 / 100)))
          (c.yaw + (x - c.last_x) * (5 / 100))) } := by
    simp [FPSCamera.process_event, h]
  rw [hred]
  refine ⟨clampPitch_mem _, rfl, ?_⟩
  rw [normalize3_of_normSq_one _ (directionVec_normSq _ _), directionVec_normSq,
    Real.sqrt_one]

/-- Witness for C4 at a concrete camera and cursor position. -/
theorem FPSCamera.cursor_pitch_clamp_unit_dir_witness :
    (-89 ≤ (demoCameraActive.process_event (.CursorPos 500 100)).pitch
      ∧ (demoCameraActive.process_event (.CursorPos 500 100)).pitch ≤ 89) ∧
    (demoCameraActive.process_event (.CursorPos 500 100)).direction =
      normalize3 (directionVec (demoCameraActive.process_event (.CursorPos 500 100)).pitch
        (demoCameraActive.process_event (.CursorPos 500 100)).yaw) ∧
    Real.sqrt ((demoCameraActive.process_event (.CursorPos 500 100)).direction.1 ^ 2
      + (demoCameraActive.process_event (.CursorPos 500 100)).direction.2.1 ^ 2
      + (demoCameraActive.process_event (.CursorPos 500 100)).direction.2.2 ^ 2) = 1 :=
  FPSCamera.cursor_pitch_clamp_unit_dir demoCameraActive 500 100 rfl

/-- C10: any event other than `CursorPos` and `Scroll` leaves the camera
unchanged; a `Scroll` event changes at most `fov` and ignores the
horizontal delta; a `CursorPos` event never changes position, fov or
aspect ratio. -/
theorem FPSCamera.process_event_frame (c : FPSCamera) :
    (c.process_event .Other = c) ∧
    (∀ dx dy : ℚ,
      (c.process_event (.Scroll dx dy)).position = c.position ∧
      (c.process_event (.Scroll dx dy)).direction = c.direction ∧
      (c.process_event (.Scroll dx dy)).yaw = c.yaw ∧
      (c.process_event (.Scroll dx dy)).pitch = c.pitch ∧
      (c.process_event (.Scroll dx dy)).last_x = c.last_x ∧
      (c.process_event (.Scroll dx dy)).last_y = c.last_y ∧
      (c.process_event (.Scroll dx dy)).aspect = c.aspect ∧
      (c.process_event (.Scroll dx dy)).first_mouse = c.first_mouse ∧
      c.process_event (.Scroll dx dy) = c.process_event (.Scroll 0 dy)) ∧
    (∀ x y : ℚ,
      (c.process_event (.CursorPos x y)).position = c.position ∧
      (c.process_event (.CursorPos x y)).fov = c.fov ∧
      (c.process_event (.CursorPos x y)).aspect = c.aspect) := by
  refine ⟨rfl, fun dx dy => ?_, fun x y => ?_⟩
  · exact ⟨rfl, rfl, rfl, rfl, rfl, rfl, rfl, rfl, rfl⟩
  · cases h : c.first_mouse <;> simp [FPSCamera.process_event, h]

/-- C5: the `Vertex` record is tightly packed at exactly 8 × 4 = 32 bytes
under its layout (3 position floats + 3 normal floats + 2 texcoord
floats, no padding); `Mesh::new`'s assertion passes at that size, so the
panic branch is unreachable, and any instantiation at a different vertex
size fails the assertion. -/
theorem Mesh.new_vertex_size_assert :
    vertex_size = f32_size * 8 ∧ vertex_size = 32 ∧
    (∀ (v : List Vertex) (i : List ℕ) (t : List Texture),
      Mesh.new vertex_size v i t =
        some { verticies := v, indices := i, textures := t, vao := 0 }) ∧
    (∀ s, s ≠ f32_size * 8 →
      ∀ (v : List Vertex) (i : List ℕ) (t : List Texture),
        Mesh.new s v i t = none) := by
  refine ⟨rfl, rfl, fun v i t => rfl, fun s hs v i t => ?_⟩
  simp [Mesh.new, hs]

/-- Witness for C5: size 16 fails the assertion, the true vertex size
passes it. -/
theorem Mesh.new_vertex_size_assert_witness :
    Mesh.new 16 [] [] [] = none ∧
    Mesh.new vertex_size [] [] [] =
      some { verticies := [], indices := [], textures := [], vao := 0 } :=
  ⟨Mesh.new_vertex_size_assert.2.2.2 16 (by decide) [] [] [],
   Mesh.new_vertex_size_assert.2.2.1 [] [] []⟩

/-- C7: `load_texture` succeeds exactly on 3-channel RGB and 4-channel
RGBA images (anything else hits the `unimplemented!` panic); the wrap
mode is `CLAMP_TO_EDGE` exactly when the format is RGBA and `REPEAT`
otherwise, with `LINEAR_MIPMAP_LINEAR` minification and `LINEAR`
magnification. -/
theorem load_texture_format_params :
    (∀ p, load_texture (.ImageRgb8 p) =
      some { format := glRGB, wrapS := glREPEAT, wrapT := glREPEAT,
             minFilter := glLINEAR_MIPMAP_LINEAR, magFilter := glLINEAR,
             pixels := p }) ∧
    (∀ p, load_texture (.ImageRgba8 p) =
      some { format := glRGBA, wrapS := glCLAMP_TO_EDGE,
             wrapT := glCLAMP_TO_EDGE,
             minFilter := glLINEAR_MIPMAP_LINEAR, magFilter := glLINEAR,
             pixels := p }) ∧
    (∀ c, load_texture (.ImageOther c) = none) ∧
    (∀ img r, load_texture img = some r →
      ((r.wrapS = glCLAMP_TO_EDGE ∧ r.wrapT = glCLAMP_TO_EDGE) ↔ r.format = glRGBA) ∧
      ((r.wrapS = glREPEAT ∧ r.wrapT = glREPEAT) ↔ r.format = glRGB) ∧
      r.minFilter = glLINEAR_MIPMAP_LINEAR ∧ r.magFilter = glLINEAR) := by
  refine ⟨fun p => ?_, fun p => ?_, fun c => rfl, fun img r h => ?_⟩
  · simp [load_texture, textureFormat, glRGB, glRGBA, glCLAMP_TO_EDGE, glREPEAT]
  · simp [load_texture, textureFormat]
  · cases img with
    | ImageRgb8 p =>
      simp only [load_texture, textureFormat, Option.map_some', Option.some.injEq] at h
      subst h
      refine ⟨?_, ?_, rfl, rfl⟩ <;> simp [glRGB, glRGBA, glCLAMP_TO_EDGE, glREPEAT]
    | ImageRgba8 p =>
      simp only [load_texture, textureFormat, Option.map_some', Option.some.injEq] at h
      subst h
      refine ⟨?_, ?_, rfl, rfl⟩ <;> simp [glRGB, glRGBA, glCLAMP_TO_EDGE, glREPEAT]
    | ImageOther c => simp [load_texture, textureFormat] at h

/-- The texture-parameter record `load_texture` produces for a 4-channel
RGBA image. -/
def demoRgbaResult : Tex2DResult :=
  { format := glRGBA, wrapS := glCLAMP_TO_EDGE, wrapT := glCLAMP_TO_EDGE,
    minFilter := glLINEAR_MIPMAP_LINEAR, magFilter := glLINEAR, pixels := 0 }

/-- Witness for C7 at a concrete RGBA image. -/
theorem load_texture_format_params_witness :
    (demoRgbaResult.wrapS = glCLAMP_TO_EDGE ∧
      demoRgbaResult.wrapT = glCLAMP_TO_EDGE) ↔
      demoRgbaResult.format = glRGBA :=
  (load_texture_format_params.2.2.2 (.ImageRgba8 0) demoRgbaResult rfl).1

/-- `loadCubemapGo` succeeds from any start index exactly when every
remaining face is a 3-channel RGB image. -/
theorem loadCubemapGo_isSome (imgs : List DynImage) : ∀ i : ℕ,
    (loadCubemapGo i imgs).isSome ↔ ∀ img ∈ imgs, ∃ p, img = DynImage.ImageRgb8 p := by
  induction imgs with
  | nil => intro i; simp [loadCubemapGo]
  | cons img rest ih =>
    intro i
    cases img with
    | ImageRgb8 p => simp [loadCubemapGo, ih (i + 1)]
    | ImageRgba8 p => simp [loadCubemapGo]
    | ImageOther c => simp [loadCubemapGo]

/-- When `loadCubemapGo` succeeds from start index `i`, face `k` of the
input is an RGB image whose pixels are uploaded to GL target
`TEXTURE_CUBE_MAP_POSITIVE_X + i + k`. -/
theorem loadCubemapGo_uploads (imgs : List DynImage) : ∀ (i : ℕ) uploads,
    loadCubemapGo i imgs = some uploads →
    uploads.length = imgs.length ∧
    ∀ k (hk : k < imgs.length),
      ∃ p, imgs.get ⟨k, hk⟩ = DynImage.ImageRgb8 p ∧
        uploads[k]? = some (glTEXTURE_CUBE_MAP_POSITIVE_X + i + k, p) := by
  induction imgs with
  | nil =>
    intro i uploads h
    simp only [loadCubemapGo, Option.some.injEq] at h
    subst h
    exact ⟨rfl, fun k hk => absurd hk (by simp)⟩
  | cons img rest ih =>
    intro i uploads h
    cases img with
    | ImageRgb8 p =>
      simp only [loadCubemapGo] at h
      cases hr : loadCubemapGo (i + 1) rest with
      | none => rw [hr] at h; simp at h
      | some restUploads =>
        rw [hr] at h
        simp only [Option.map_some', Option.some.injEq] at h
        subst h
        obtain ⟨hlen, hspec⟩ := ih (i + 1) restUploads hr
        refine ⟨by simp [hlen], fun k hk => ?_⟩
        cases k with
        | zero => exact ⟨p, rfl, by simp⟩
        | succ k =>
          obtain ⟨q, hq, hu⟩ := hspec k (by simpa using hk)
          refine ⟨q, by simpa using hq, ?_⟩
          rw [List.getElem?_cons_succ, hu]
          congr 2
          omega
    | ImageRgba8 p => simp [loadCubemapGo] at h
    | ImageOther c => simp [loadCubemapGo] at h

/-- C2 counterexample: `load_cubemap` performs no length check — a call
with only five RGB faces (fewer than six) succeeds, uploading the five
faces, where the claim says it must fail. -/
theorem load_cubemap_five_faces_succeed :
    load_cubemap [DynImage.ImageRgb8 10, .ImageRgb8 11, .ImageRgb8 12,
        .ImageRgb8 13, .ImageRgb8 14] =
      some [(glTEXTURE_CUBE_MAP_POSITIVE_X, 10),
            (glTEXTURE_CUBE_MAP_NEGATIVE_X, 11),
            (glTEXTURE_CUBE_MAP_POSITIVE_Y, 12),
            (glTEXTURE_CUBE_MAP_NEGATIVE_Y, 13),
            (glTEXTURE_CUBE_MAP_POSITIVE_Z, 14)] := by
  decide

/-- C2 amended: `load_cubemap` succeeds exactly when every supplied face
image decodes as 3-channel RGB — the number of paths is NOT checked —
and uploads face `k` to GL target `TEXTURE_CUBE_MAP_POSITIVE_X + k` in
the positional order supplied; with exactly six faces the targets are
+X, −X, +Y, −Y, +Z, −Z in order; any non-RGB face fails. -/
theorem load_cubemap_faces :
    (∀ imgs, (load_cubemap imgs).isSome ↔
      ∀ img ∈ imgs, ∃ p, img = DynImage.ImageRgb8 p) ∧
    (∀ imgs uploads, load_cubemap imgs = some uploads →
      uploads.length = imgs.length ∧
      ∀ k (hk : k < imgs.length),
        ∃ p, imgs.get ⟨k, hk⟩ = DynImage.ImageRgb8 p ∧
          uploads[k]? = some (glTEXTURE_CUBE_MAP_POSITIVE_X + k, p)) ∧
    (∀ p0 p1 p2 p3 p4 p5 : ℕ,
      load_cubemap [DynImage.ImageRgb8 p0, .ImageRgb8 p1, .ImageRgb8 p2,
          .ImageRgb8 p3, .ImageRgb8 p4, .ImageRgb8 p5] =
        some [(glTEXTURE_CUBE_MAP_POSITIVE_X, p0),
              (glTEXTURE_CUBE_MAP_NEGATIVE_X, p1),
              (glTEXTURE_CUBE_MAP_POSITIVE_Y, p2),
              (glTEXTURE_CUBE_MAP_NEGATIVE_Y, p3),
              (glTEXTURE_CUBE_MAP_POSITIVE_Z, p4),
              (glTEXTURE_CUBE_MAP_NEGATIVE_Z, p5)]) ∧
    (∀ (imgs : List DynImage) (p c k : ℕ),
      imgs[k]? = some (DynImage.ImageOther c) ∨
        imgs[k]? = some (DynImage.ImageRgba8 p) →
      load_cubemap imgs = none) := by
  refine ⟨fun imgs => loadCubemapGo_isSome imgs 0, fun imgs uploads h => ?_, ?_, ?_⟩
  · obtain ⟨hlen, hspec⟩ := loadCubemapGo_uploads imgs 0 uploads h
    exact ⟨hlen, fun k hk => by simpa using hspec k hk⟩
  · intro p0 p1 p2 p3 p4 p5
    rfl
  · intro imgs p c k h
    cases hl : load_cubemap imgs with
    | none => rfl
    | some uploads =>
      exfalso
      have hsome : ∀ img ∈ imgs, ∃ q, img = DynImage.ImageRgb8 q := by
        have := (loadCubemapGo_isSome imgs 0).mp (by simp [load_cubemap] at hl ⊢; simp [hl])
        exact this
      cases h with
      | inl h =>
        obtain ⟨q, hq⟩ := hsome _ (List.getElem?_mem h)
        exact DynImage.noConfusion hq
      | inr h =>
        obtain ⟨q, hq⟩ := hsome _ (List.getElem?_mem h)
        exact DynImage.noConfusion hq

/-- Witness for C2 (amended) at one RGB face followed by one RGBA face:
the RGBA face makes the whole call fail. -/
theorem load_cubemap_faces_witness :
    load_cubemap [DynImage.ImageRgb8 10, .ImageRgba8 11] = none :=
  load_cubemap_faces.2.2.2 [DynImage.ImageRgb8 10, .ImageRgba8 11] 11 0 1
    (Or.inr rfl)

/-- `mapM` over `Option` succeeds pointwise when the function succeeds on
every element. -/
theorem List.mapM_option_eq_some {α β : Type} (f : α → Option β) (g : α → β)
    (l : List α) (h : ∀ a ∈ l, f a = some (g a)) :
    l.mapM f = some (l.map g) := by
  induction l with
  | nil => rfl
  | cons a l ih =>
    rw [List.mapM_cons, h a (List.mem_cons_self a l),
      ih (fun b hb => h b (List.mem_cons_of_mem a hb))]
    rfl

/-- C6: the flat `Vertex` array `load_obj` builds for one sub-mesh zips
the parser's position/normal/texcoord arrays index-by-index: given
aligned arrays of `3·len`, `3·len` and `2·len` entries it has `len`
entries, entry `i` taking `positions[3i..3i+2]`, `normals[3i..3i+2]` and
`texcoords[2i..2i+1]`; no validation of the alignment is performed, and
a misaligned shorter array makes the build fail (the out-of-bounds
panic). -/
theorem load_obj_vertex_zip (ps ns ts : List ℚ) (len : ℕ)
    (hp : ps.length = 3 * len) (hn : ns.length = 3 * len)
    (ht : ts.length = 2 * len) :
    (∃ vs, buildVertices ps ns ts = some vs ∧ vs.length = len ∧
      ∀ i (hi : i < len),
        vs[i]? = some
          { position := (ps.get ⟨3 * i, by omega⟩, ps.get ⟨3 * i + 1, by omega⟩,
              ps.get ⟨3 * i + 2, by omega⟩),
            normal := (ns.get ⟨3 * i, by omega⟩, ns.get ⟨3 * i + 1, by omega⟩,
              ns.get ⟨3 * i + 2, by omega⟩),
            tex_coords := (ts.get ⟨2 * i, by omega⟩,
              ts.get ⟨2 * i + 1, by omega⟩) }) ∧
    buildVertices [0, 0, 0] [] [] = none := by
  refine ⟨?_, by decide⟩
  have hlen : ps.length / 3 = len := by omega
  have hmem : ∀ i ∈ List.range len, vertexAt ps ns ts i = some
      { position := (ps.getD (3 * i) 0, ps.getD (3 * i + 1) 0,
          ps.getD (3 * i + 2) 0),
        normal := (ns.getD (3 * i) 0, ns.getD (3 * i + 1) 0,
          ns.getD (3 * i + 2) 0),
        tex_coords := (ts.getD (2 * i) 0, ts.getD (2 * i + 1) 0) } := by
    intro i hi
    rw [List.mem_range] at hi
    have h1 : 3 * i < ps.length := by omega
    have h2 : 3 * i + 1 < ps.length := by omega
    have h3 : 3 * i + 2 < ps.length := by omega
    have h4 : 3 * i < ns.length := by omega
    have h5 : 3 * i + 1 < ns.length := by omega
    have h6 : 3 * i + 2 < ns.length := by omega
    have h7 : 2 * i < ts.length := by omega
    have h8 : 2 * i + 1 < ts.length := by omega
    simp only [vertexAt, List.getElem?_eq_getElem, h1, h2, h3, h4, h5, h6, h7, h8,
      Option.some_bind, List.getD_eq_getElem, Option.pure_def]
    rfl
  refine ⟨(List.range len).map (fun i =>
    { position := (ps.getD (3 * i) 0, ps.getD (3 * i + 1) 0, ps.getD (3 * i + 2) 0),
      normal := (ns.getD (3 * i) 0, ns.getD (3 * i + 1) 0, ns.getD (3 * i + 2) 0),
      tex_coords := (ts.getD (2 * i) 0, ts.getD (2 * i + 1) 0) }), ?_, by simp, ?_⟩
  · unfold buildVertices
    rw [hlen]
    exact List.mapM_option_eq_some _ _ _ hmem
  · intro i hi
    have hr : (List.range len)[i]? = some i := by
      rw [List.getElem?_eq_getElem (by simpa using hi)]
      simp
    rw [List.getElem?_map, hr]
    have h1 : 3 * i < ps.length := by omega
    have h2 : 3 * i + 1 < ps.length := by omega
    have h3 : 3 * i + 2 < ps.length := by omega
    have h4 : 3 * i < ns.length := by omega
    have h5 : 3 * i + 1 < ns.length := by omega
    have h6 : 3 * i + 2 < ns.length := by omega
    have h7 : 2 * i < ts.length := by omega
    have h8 : 2 * i + 1 < ts.length := by omega
    simp only [Option.map_some', Option.some.injEq, List.get_eq_getElem,
      List.getD_eq_getElem, h1, h2, h3, h4, h5, h6, h7, h8]

/-- Witness for C6: a one-vertex aligned input builds the zipped vertex,
and the misaligned input fails. -/
theorem load_obj_vertex_zip_witness :
    buildVertices [1, 2, 3] [4, 5, 6] [7, 8] =
      some [{ position := (1, 2, 3), normal := (4, 5, 6), tex_coords := (7, 8) }] ∧
    buildVertices [0, 0, 0] [] [] = none := by
  obtain ⟨⟨vs, hvs, hlen, hspec⟩, hnone⟩ :=
    load_obj_vertex_zip [1, 2, 3] [4, 5, 6] [7, 8] 1 rfl rfl rfl
  refine ⟨?_, hnone⟩
  have h0 := hspec 0 (by norm_num)
  cases vs with
  | nil => simp at hlen
  | cons v rest =>
    cases rest with
    | cons b l => simp at hlen
    | nil =>
      simp only [List.getElem?_cons_zero, Option.some.injEq] at h0
      subst h0
      rw [hvs]
      rfl

/-- The running counter `set_texture` keeps for a kind: the diffuse
counter for `Diffuse`, the specular counter for `Specular`. -/
def kindBase (k : TextureType) (d s : ℕ) : ℕ :=
  match k with
  | .Diffuse => d
  | .Specular => s

/-- Recognizes `glActiveTexture` commands in a trace. -/
def isActiveTexture : Cmd → Bool
  | .activeTexture _ => true
  | _ => false

theorem countKind_cons (k : TextureType) (t : Texture) (l : List Texture) :
    countKind k (t :: l) =
      (if t.type_ = k then 1 else 0) + countKind k l := by
  simp only [countKind, List.filter_cons]
  split_ifs with h <;> simp_all <;> omega

theorem setTextureGo_length (ts : List Texture) :
    ∀ i d s, (setTextureGo i d s ts).length = 3 * ts.length := by
  induction ts with
  | nil => intro i d s; rfl
  | cons t ts ih =>
    intro i d s
    cases h : t.type_ <;> simp [setTextureGo, h, ih] <;> omega

/-- Command `3k`, `3k+1`, `3k+2` of the `set_texture` loop trace started
at unit `i0` with counters `d`, `s`: activate unit `i0+k`, set the
per-kind-numbered material uniform to `i0+k`, bind texture `k`. -/
theorem setTextureGo_getElem (ts : List Texture) :
    ∀ i0 d s k (hk : k < ts.length),
      (setTextureGo i0 d s ts)[3 * k]? =
        some (Cmd.activeTexture (glTEXTURE0 + (i0 + k))) ∧
      (setTextureGo i0 d s ts)[3 * k + 1]? =
        some (Cmd.setInteger
          (uniformName (ts.get ⟨k, hk⟩).type_
            (kindBase (ts.get ⟨k, hk⟩).type_ d s
              + countKind (ts.get ⟨k, hk⟩).type_ (ts.take (k + 1))))
          (i0 + k)) ∧
      (setTextureGo i0 d s ts)[3 * k + 2]? =
        some (Cmd.bindTexture2D (ts.get ⟨k, hk⟩).id) := by
  induction ts with
  | nil => intro i0 d s k hk; exact absurd hk (by simp)
  | cons t ts ih =>
    intro i0 d s k hk
    cases k with
    | zero =>
      cases h : t.type_ with
      | Diffuse =>
        refine ⟨?_, ?_, ?_⟩ <;>
          simp [setTextureGo, h, uniformName, kindBase, countKind_cons, countKind]
      | Specular =>
        refine ⟨?_, ?_, ?_⟩ <;>
          simp [setTextureGo, h, uniformName, kindBase, countKind_cons, countKind]
    | succ k =>
      have hk2 : k < ts.length := by simpa using hk
      have harith : i0 + (k + 1) = i0 + 1 + k := by omega
      have hidx0 : 3 * (k + 1) = 3 * k + 2 + 1 := by omega
      have hidx1 : 3 * (k + 1) + 1 = 3 * k + 2 + 1 + 1 := by omega
      have hidx2 : 3 * (k + 1) + 2 = 3 * k + 2 + 1 + 1 + 1 := by omega
      cases h : t.type_ with
      | Diffuse =>
        obtain ⟨IH1, IH2, IH3⟩ := ih (i0 + 1) (d + 1) s k hk2
        have hcount : ∀ T : TextureType,
            kindBase T d s + countKind T ((t :: ts).take (k + 1 + 1)) =
              kindBase T (d + 1) s + countKind T (ts.take (k + 1)) := by
          intro T
          rw [List.take_succ_cons, countKind_cons]
          cases T <;> simp [kindBase, h] <;> omega
        refine ⟨?_, ?_, ?_⟩
        · rw [hidx0, harith]
          simpa [setTextureGo, h] using IH1
        · rw [hidx1, harith, hcount]
          simpa [setTextureGo, h] using IH2
        · rw [hidx2]
          simpa [setTextureGo, h] using IH3
      | Specular =>
        obtain ⟨IH1, IH2, IH3⟩ := ih (i0 + 1) d (s + 1) k hk2
        have hcount : ∀ T : TextureType,
            kindBase T d s + countKind T ((t :: ts).take (k + 1 + 1)) =
              kindBase T d (s + 1) + countKind T (ts.take (k + 1)) := by
          intro T
          rw [List.take_succ_cons, countKind_cons]
          cases T <;> simp [kindBase, h] <;> omega
        refine ⟨?_, ?_, ?_⟩
        · rw [hidx0, harith]
          simpa [setTextureGo, h] using IH1
        · rw [hidx1, harith, hcount]
          simpa [setTextureGo, h] using IH2
        · rw [hidx2]
          simpa [setTextureGo, h] using IH3

/-- C8: `Mesh::draw` and `Mesh::draw_instanced` bind the `k`-th texture
to texture unit `k`, set the uniform `material.texture_diffuse<n>` /
`material.texture_specular<n>` to `k` — `<n>` being the 1-based count of
textures of that kind among the first `k+1` — then issue the indexed
(instanced) draw call, and leave texture unit 0 active afterward. -/
theorem Mesh.draw_texture_units :
    (∀ (t : List Texture) k (hk : k < t.length),
      (set_texture t)[3 * k]? = some (Cmd.activeTexture (glTEXTURE0 + k)) ∧
      (set_texture t)[3 * k + 1]? =
        some (Cmd.setInteger
          (uniformName (t.get ⟨k, hk⟩).type_
            (countKind (t.get ⟨k, hk⟩).type_ (t.take (k + 1)))) k) ∧
      (set_texture t)[3 * k + 2]? =
        some (Cmd.bindTexture2D (t.get ⟨k, hk⟩).id)) ∧
    (∀ m : Mesh, m.draw = set_texture m.textures
      ++ [Cmd.bindVertexArray m.vao, Cmd.drawElements m.indices.length,
          Cmd.bindVertexArray 0]) ∧
    (∀ (m : Mesh) (amount : ℕ), m.draw_instanced amount = set_texture m.textures
      ++ [Cmd.bindVertexArray m.vao,
          Cmd.drawElementsInstanced m.indices.length amount,
          Cmd.bindVertexArray 0]) ∧
    (∀ m : Mesh, ((m.draw).filter isActiveTexture).getLast? =
      some (Cmd.activeTexture glTEXTURE0)) ∧
    (∀ (m : Mesh) (amount : ℕ),
      ((m.draw_instanced amount).filter isActiveTexture).getLast? =
        some (Cmd.activeTexture glTEXTURE0)) := by
  have hfilter : ∀ t : List Texture,
      (set_texture t).filter isActiveTexture =
        (setTextureGo 0 0 0 t).filter isActiveTexture
          ++ [Cmd.activeTexture glTEXTURE0] := by
    intro t
    simp [set_texture, List.filter_append, isActiveTexture]
  refine ⟨fun t k hk => ?_, fun m => rfl, fun m amount => rfl, fun m => ?_,
    fun m amount => ?_⟩
  · obtain ⟨H1, H2, H3⟩ := setTextureGo_getElem t 0 0 0 k hk
    have hlen := setTextureGo_length t 0 0 0
    have g0 : 3 * k < (setTextureGo 0 0 0 t).length := by omega
    have g1 : 3 * k + 1 < (setTextureGo 0 0 0 t).length := by omega
    have g2 : 3 * k + 2 < (setTextureGo 0 0 0 t).length := by omega
    have hbase : kindBase (t.get ⟨k, hk⟩).type_ 0 0 = 0 := by
      cases (t.get ⟨k, hk⟩).type_ <;> rfl
    rw [hbase] at H2
    simp only [Nat.zero_add] at H1 H2
    exact ⟨by rw [set_texture, List.getElem?_append_left g0]; exact H1,
      by rw [set_texture, List.getElem?_append_left g1]; exact H2,
      by rw [set_texture, List.getElem?_append_left g2]; exact H3⟩
  · show ((set_texture m.textures ++ _).filter isActiveTexture).getLast? = _
    rw [List.filter_append, hfilter]
    simp [isActiveTexture]
  · show ((set_texture m.textures ++ _).filter isActiveTexture).getLast? = _
    rw [List.filter_append, hfilter]
    simp [isActiveTexture]

/-- The mesh a witness drives the draw trace with. -/
def demoMesh : Mesh :=
  { verticies := [], indices := [0, 1, 2],
    textures := [{ id := 5, type_ := .Diffuse }, { id := 6, type_ := .Specular }],
    vao := 3 }

/-- Witness for C8: the second texture of the demo mesh (a specular one)
is bound to unit 1 with uniform `material.texture_specular1`, and the
draw trace leaves unit 0 active. -/
theorem Mesh.draw_texture_units_witness :
    ((set_texture demoMesh.textures)[3 * 1]? =
        some (Cmd.activeTexture (glTEXTURE0 + 1)) ∧
      (set_texture demoMesh.textures)[3 * 1 + 1]? =
        some (Cmd.setInteger
          (uniformName (demoMesh.textures.get ⟨1, by decide⟩).type_
            (countKind (demoMesh.textures.get ⟨1, by decide⟩).type_
              (demoMesh.textures.take (1 + 1)))) 1) ∧
      (set_texture demoMesh.textures)[3 * 1 + 2]? =
        some (Cmd.bindTexture2D (demoMesh.textures.get ⟨1, by decide⟩).id)) ∧
    ((demoMesh.draw).filter isActiveTexture).getLast? =
      some (Cmd.activeTexture glTEXTURE0) :=
  ⟨Mesh.draw_texture_units.1 demoMesh.textures 1 (by decide),
   Mesh.draw_texture_units.2.2.2.1 demoMesh⟩

/-- A successful association-list lookup returns a stored pair. -/
theorem lookupPair_mem {β : Type} (l : List (String × β)) (k : String) (v : β)
    (h : l.lookup k = some v) : (k, v) ∈ l := by
  induction l with
  | nil => simp [List.lookup] at h
  | cons p l ih =>
    obtain ⟨k1, b⟩ := p
    simp only [List.lookup] at h
    cases hbeq : k == k1 with
    | true =>
      rw [hbeq] at h
      simp only [Option.some.injEq] at h
      subst h
      rw [eq_of_beq hbeq]
      exact List.mem_cons_self _ _
    | false =>
      rw [hbeq] at h
      exact List.mem_cons_of_mem _ (ih h)

/-- A `textureEntry` step keeps every cached and output texture handle
inside the allocator interval, and only moves the allocator forward. -/
theorem textureEntry_bounds (a0 alloc : ℕ) (cache : List (String × Texture))
    (textures : List Texture) (key : String) (ty : TextureType)
    (ha : a0 ≤ alloc)
    (hc : ∀ p ∈ cache, a0 ≤ (Prod.snd p).id ∧ (Prod.snd p).id < alloc)
    (ht : ∀ x ∈ textures, a0 ≤ x.id ∧ x.id < alloc) :
    alloc ≤ (textureEntry cache key ty textures alloc).2.2 ∧
    (∀ p ∈ (textureEntry cache key ty textures alloc).1,
      a0 ≤ (Prod.snd p).id ∧
        (Prod.snd p).id < (textureEntry cache key ty textures alloc).2.2) ∧
    (∀ x ∈ (textureEntry cache key ty textures alloc).2.1,
      a0 ≤ x.id ∧ x.id < (textureEntry cache key ty textures alloc).2.2) := by
  unfold textureEntry
  cases h : cache.lookup key with
  | some t =>
    have hmem : (key, t) ∈ cache := lookupPair_mem cache key t h
    refine ⟨le_refl _, hc, fun x hx => ?_⟩
    rcases List.mem_append.mp hx with hx | hx
    · exact ht x hx
    · rw [List.mem_singleton.mp hx]
      exact hc (key, t) hmem
  | none =>
    refine ⟨Nat.le_succ _, fun p hp => ?_, fun x hx => ?_⟩
    · rcases List.mem_cons.mp hp with hp | hp
      · rw [hp]
        exact ⟨ha, Nat.lt_succ_self _⟩
      · obtain ⟨h1, h2⟩ := hc p hp
        exact ⟨h1, h2.trans (Nat.lt_succ_self _)⟩
    · rcases List.mem_append.mp hx with hx | hx
      · obtain ⟨h1, h2⟩ := ht x hx
        exact ⟨h1, h2.trans (Nat.lt_succ_self _)⟩
      · rw [List.mem_singleton.mp hx]
        exact ⟨ha, Nat.lt_succ_self _⟩

/-- The textures created for one sub-mesh all carry handles from the
allocator interval of that sub-mesh's processing. -/
theorem meshTextures_bounds (name : String) (materials : List Material)
    (mid : Option ℕ) (alloc : ℕ) (ts : List Texture) (a2 : ℕ)
    (h : meshTextures name materials mid alloc = some (ts, a2)) :
    alloc ≤ a2 ∧ ∀ x ∈ ts, alloc ≤ x.id ∧ x.id < a2 := by
  cases mid with
  | none =>
    simp only [meshTextures, Option.some.injEq, Prod.mk.injEq] at h
    obtain ⟨rfl, rfl⟩ := h
    exact ⟨le_refl _, by simp⟩
  | some mid =>
    cases hmat : materials[mid]? with
    | none => simp [meshTextures, hmat] at h
    | some material =>
      simp only [meshTextures, hmat, Option.some.injEq, Prod.mk.injEq] at h
      split_ifs at h with hs hd hd2
      · obtain ⟨rfl, rfl⟩ := h
        exact ⟨le_refl _, by simp⟩
      · obtain ⟨H1, H2, H3⟩ := textureEntry_bounds
          alloc alloc [] []
          (withFileName name material.diffuse_texture) TextureType.Diffuse
          (le_refl _) (by simp) (by simp)
        obtain ⟨rfl, rfl⟩ := h
        exact ⟨H1, H3⟩
      · obtain ⟨H1, H2, H3⟩ := textureEntry_bounds
          alloc alloc [] []
          (withFileName name material.specular_texture) TextureType.Specular
          (le_refl _) (by simp) (by simp)
        obtain ⟨rfl, rfl⟩ := h
        exact ⟨H1, H3⟩
      · obtain ⟨H1, H2, H3⟩ := textureEntry_bounds
          alloc alloc [] []
          (withFileName name material.diffuse_texture) TextureType.Diffuse
          (le_refl _) (by simp) (by simp)
        obtain ⟨G1, G2, G3⟩ := textureEntry_bounds
          alloc
          ((textureEntry [] (withFileName name material.diffuse_texture)
            TextureType.Diffuse [] alloc).2.2)
          ((textureEntry [] (withFileName name material.diffuse_texture)
            TextureType.Diffuse [] alloc).1)
          ((textureEntry [] (withFileName name material.diffuse_texture)
            TextureType.Diffuse [] alloc).2.1)
          (withFileName name material.specular_texture) TextureType.Specular
          H1 H2 H3
        obtain ⟨rfl, rfl⟩ := h
        exact ⟨H1.trans G1, G3⟩

/-- Handles produced by a `load_obj` call lie in the allocator interval
of the call, and no two meshes of the call share a handle (each mesh has
its own texture cache, so nothing is ever reused across meshes). -/
theorem loadObjGo_bounds (name : String) (materials : List Material) :
    ∀ (models : List TobjModel) (a : ℕ) (ms : List Mesh) (a2 : ℕ),
      loadObjGo name materials models a = some (ms, a2) →
      a ≤ a2 ∧
      (∀ m ∈ ms, ∀ x ∈ m.textures, a ≤ x.id ∧ x.id < a2) ∧
      ms.Pairwise (fun m1 m2 =>
        ∀ x1 ∈ m1.textures, ∀ x2 ∈ m2.textures, x1.id ≠ x2.id) := by
  intro models
  induction models with
  | nil =>
    intro a ms a2 h
    simp only [loadObjGo, Option.some.injEq, Prod.mk.injEq] at h
    obtain ⟨rfl, rfl⟩ := h
    exact ⟨le_refl _, by simp, List.Pairwise.nil⟩
  | cons model rest ih =>
    intro a ms a2 h
    simp only [loadObjGo] at h
    cases hv : buildVertices model.mesh.positions model.mesh.normals
        model.mesh.texcoords with
    | none => rw [hv] at h; simp at h
    | some verts =>
      rw [hv] at h
      simp only [Option.bind_eq_bind, Option.some_bind] at h
      cases hm : meshTextures name materials model.mesh.material_id a with
      | none => rw [hm] at h; simp at h
      | some pair =>
        obtain ⟨textures, a1⟩ := pair
        rw [hm] at h
        simp only [Option.bind_eq_bind, Option.some_bind, Mesh.new] at h
        have hvs : vertex_size = f32_size * 8 := rfl
        rw [if_pos hvs] at h
        simp only [Option.bind_eq_bind, Option.some_bind] at h
        cases hr : loadObjGo name materials rest a1 with
        | none => rw [hr] at h; simp at h
        | some pr =>
          obtain ⟨ms1, aEnd⟩ := pr
          rw [hr] at h
          simp only [Option.bind_eq_bind, Option.some_bind, Option.some.injEq, Prod.mk.injEq] at h
          obtain ⟨rfl, rfl⟩ := h
          obtain ⟨hle1, hbound1⟩ := meshTextures_bounds name materials
            model.mesh.material_id a textures a1 hm
          obtain ⟨hle2, hbound2, hpair⟩ := ih a1 ms1 a2 hr
          refine ⟨hle1.trans hle2, ?_, ?_⟩
          · intro m hm2 x hx
            rcases List.mem_cons.mp hm2 with hm2 | hm2
            · subst hm2
              obtain ⟨h1, h2⟩ := hbound1 x hx
              exact ⟨h1, h2.trans_le hle2⟩
            · obtain ⟨h1, h2⟩ := hbound2 m hm2 x hx
              exact ⟨hle1.trans h1, h2⟩
          · refine List.Pairwise.cons ?_ hpair
            intro m2 hm2 x1 hx1 x2 hx2
            have hb1 := (hbound1 x1 hx1).2
            have hb2 := (hbound2 m2 hm2 x2 hx2).1
            omega

/-- The sub-meshes and material list the C1 scenario uses: two sub-meshes
with empty geometry, both referencing material 0, whose diffuse texture
is `t.png`. -/
def c1Models : List TobjModel :=
  [{ mesh := { positions := [], normals := [], texcoords := [],
               indices := [], material_id := some 0 } },
   { mesh := { positions := [], normals := [], texcoords := [],
               indices := [], material_id := some 0 } }]

def c1Materials : List Material :=
  [{ diffuse_texture := "t.png", specular_texture := "" }]

/-- C1 counterexample: within ONE `load_obj` call, two sub-meshes
referencing the same material — hence the same resolved texture path
`dir/t.png` — get DISTINCT texture handles (0 and 1): the
`loaded_textures` cache is created inside the per-model loop
(src/lib.rs line 551), so the previously created handle is NOT reused
across meshes, contrary to the claim. -/
theorem load_obj_cross_mesh_no_dedup :
    ((load_obj "dir/m.obj" c1Models c1Materials 0).map
      fun r => r.1.map fun m => m.textures.map Texture.id) = some [[0], [1]] ∧
    [(0 : ℕ)] ≠ [1] := by
  exact ⟨by decide, by decide⟩

/-- C1 amended: texture deduplication in `Model::load_obj` is scoped to
ONE sub-mesh, not to the whole call: within one sub-mesh, a material
whose diffuse and specular textures resolve to the same path reuses the
previously created handle (one allocation, the handle pushed twice);
two different meshes of the same call never share a handle; and two
separate `load_obj` calls never share handles. -/
theorem load_obj_texture_cache_per_mesh
    (name : String) (materials : List Material) (mid : ℕ) (material : Material)
    (alloc : ℕ)
    (hmat : materials[mid]? = some material)
    (hd : ¬ material.diffuse_texture = "")
    (hs : ¬ material.specular_texture = "")
    (hsame : withFileName name material.specular_texture =
      withFileName name material.diffuse_texture)
    (n1 n2 : String) (models1 models2 : List TobjModel)
    (mats1 mats2 : List Material) (a0 a1 a2 : ℕ) (ms1 ms2 : List Mesh)
    (h1 : load_obj n1 models1 mats1 a0 = some (ms1, a1))
    (h2 : load_obj n2 models2 mats2 a1 = some (ms2, a2)) :
    meshTextures name materials (some mid) alloc =
      some ([{ id := alloc, type_ := .Diffuse },
             { id := alloc, type_ := .Diffuse }], alloc + 1) ∧
    ms1.Pairwise (fun m1 m2 =>
      ∀ x1 ∈ m1.textures, ∀ x2 ∈ m2.textures, x1.id ≠ x2.id) ∧
    (∀ m1 ∈ ms1, ∀ m2 ∈ ms2, ∀ x1 ∈ m1.textures, ∀ x2 ∈ m2.textures,
      x1.id ≠ x2.id) := by
  refine ⟨?_, (loadObjGo_bounds n1 mats1 models1 a0 ms1 a1 h1).2.2, ?_⟩
  · simp only [meshTextures, hmat, if_neg hd, if_neg hs]
    have hst1 : textureEntry [] (withFileName name material.diffuse_texture)
        TextureType.Diffuse [] alloc =
        ([(withFileName name material.diffuse_texture,
           { id := alloc, type_ := .Diffuse })],
         [{ id := alloc, type_ := .Diffuse }], alloc + 1) := rfl
    rw [hst1, hsame]
    have hst2 : textureEntry
        [(withFileName name material.diffuse_texture,
          ({ id := alloc, type_ := .Diffuse } : Texture))]
        (withFileName name material.diffuse_texture) TextureType.Specular
        [{ id := alloc, type_ := .Diffuse }] (alloc + 1) =
        ([(withFileName name material.diffuse_texture,
           { id := alloc, type_ := .Diffuse })],
         [{ id := alloc, type_ := .Diffuse },
          { id := alloc, type_ := .Diffuse }], alloc + 1) := by
      simp [textureEntry, List.lookup]
    rw [hst2]
  · intro m1 hm1 m2 hm2 x1 hx1 x2 hx2
    have hb1 := ((loadObjGo_bounds n1 mats1 models1 a0 ms1 a1 h1).2.1
      m1 hm1 x1 hx1).2
    have hb2 := ((loadObjGo_bounds n2 mats2 models2 a1 ms2 a2 h2).2.1
      m2 hm2 x2 hx2).1
    omega

/-- A material whose diffuse and specular maps are the same file. -/
def c1MaterialBoth : Material :=
  { diffuse_texture := "t.png", specular_texture := "t.png" }

def c1MeshA : Mesh :=
  { verticies := [], indices := [], textures := [{ id := 0, type_ := .Diffuse }],
    vao := 0 }

def c1MeshB : Mesh :=
  { verticies := [], indices := [], textures := [{ id := 1, type_ := .Diffuse }],
    vao := 0 }

def c1MeshC : Mesh :=
  { verticies := [], indices := [], textures := [{ id := 2, type_ := .Diffuse }],
    vao := 0 }

def c1MeshD : Mesh :=
  { verticies := [], indices := [], textures := [{ id := 3, type_ := .Diffuse }],
    vao := 0 }

/-- Witness for C1 (amended) at concrete inputs: a same-path
diffuse/specular material dedups within one mesh, and the handle sets of
the call starting at allocator 0 and the follow-up call starting at
allocator 2 are disjoint. -/
theorem load_obj_texture_cache_per_mesh_witness :
    meshTextures "dir/m.obj" [c1MaterialBoth] (some 0) 7 =
      some ([{ id := 7, type_ := .Diffuse },
             { id := 7, type_ := .Diffuse }], 7 + 1) ∧
    List.Pairwise (fun m1 m2 =>
        ∀ x1 ∈ m1.textures, ∀ x2 ∈ m2.textures, x1.id ≠ x2.id)
      [c1MeshA, c1MeshB] ∧
    (∀ m1 ∈ [c1MeshA, c1MeshB], ∀ m2 ∈ [c1MeshC, c1MeshD],
      ∀ x1 ∈ m1.textures, ∀ x2 ∈ m2.textures, x1.id ≠ x2.id) :=
  load_obj_texture_cache_per_mesh "dir/m.obj" [c1MaterialBoth] 0 c1MaterialBoth 7
    rfl (by decide) (by decide) rfl
    "dir/m.obj" "dir/m.obj" c1Models c1Models c1Materials c1Materials
    0 2 4 [c1MeshA, c1MeshB] [c1MeshC, c1MeshD] (by decide) (by decide)

end GameEngine
